import Mathlib

/-!
Verification of the header-fixing tool `fix_headers.py`.

The tool's core consists of:
* `build_header_regex` / `HEADER_REGEX`: a regular expression recognizing a
  path-bearing header comment at the start of a file, for any configured
  comment style;
* `get_proposed_changes`: decides, for one file, whether to add a header,
  replace an existing one, or leave the file alone, and produces the new
  content;
* `IgnoreChecker.is_ignored`: hierarchical gitignore-based exclusion, walking
  from the file's directory up to the project root.

File contents are modelled as `List Char` (the tool reads whole files as
Python `str`).  All inputs relevant to the claims are ASCII, so the ASCII
readings of Python's `\s` and `\w` classes are used.  The regular expression
is embedded as a small backtracking matcher (`Re.run`) whose candidate
remainders are produced in exactly Python's exploration order (alternatives
left to right, quantifiers greedy, longest first), so the head of the
candidate list is the match Python's `re.match` returns.
-/

namespace FixHeaders

/-- Python `\s` on the ASCII range: space, tab, newline, carriage return,
vertical tab, form feed. -/
def pyIsSpace (c : Char) : Bool :=
  c == ' ' || c == '\t' || c == '\n' || c == '\r' || c == '\x0b' || c == '\x0c'

/-- Python `\w` on the ASCII range: letters, digits, underscore. -/
def pyIsWord (c : Char) : Bool :=
  ('a' ≤ c && c ≤ 'z') || ('A' ≤ c && c ≤ 'Z') || ('0' ≤ c && c ≤ '9') || c == '_'

/-- The character class `[\w\-\./\\_ ]` used as `path_like_content` in
`build_header_regex`. -/
def path_like_content (c : Char) : Bool :=
  pyIsWord c || c == '-' || c == '.' || c == '/' || c == '\\' || c == '_' || c == ' '

/-- Python `str.lstrip()` (whitespace form). -/
def pyLstrip (l : List Char) : List Char := l.dropWhile pyIsSpace

/-- Python `str.rstrip()` (whitespace form). -/
def pyRstrip (l : List Char) : List Char := (l.reverse.dropWhile pyIsSpace).reverse

/-- Python `str.strip()` (whitespace form). -/
def pyStrip (l : List Char) : List Char := pyRstrip (pyLstrip l)

/-! ### A small backtracking regex engine

Only the constructs appearing in `HEADER_REGEX` are needed: literals,
greedy star/plus over a character class, concatenation, alternation, and
multiline `$`.  (`re.match` anchors at offset 0, so the leading `^` of the
pattern is implicit here; `re.MULTILINE` only affects `$`, which matches at
the end of the input or before a newline.) -/

inductive Re where
  | lit (cs : List Char)
  | star (p : Char → Bool)
  | plus (p : Char → Bool)
  | cat (r1 r2 : Re)
  | alt (r1 r2 : Re)
  | eol

/-- Backtracking remainders for a greedy `p*` at the head of `s`: the suffixes
left over after consuming a maximal run of `p`-characters, longest consumed
first (Python explores greedy quantifiers in this order). -/
def starRems (p : Char → Bool) : List Char → List (List Char)
  | [] => [[]]
  | c :: t => if p c then starRems p t ++ [c :: t] else [c :: t]

/-- Backtracking remainders for a greedy `p+` at the head of `s`: like
`starRems` but at least one character must be consumed. -/
def plusRems (p : Char → Bool) : List Char → List (List Char)
  | [] => []
  | c :: t => if p c then starRems p t else []

/-- Sequencing of remainder lists, preserving the backtracking priority
order. -/
def concatRems (f : List Char → List (List Char)) : List (List Char) → List (List Char)
  | [] => []
  | a :: as => f a ++ concatRems f as

/-- All ways the pattern can match a prefix of `s`, as the list of leftover
suffixes, in Python's backtracking priority order.  The head of the list,
when any, is the match `re.match` produces. -/
def Re.run : Re → List Char → List (List Char)
  | .lit cs, s => if cs.isPrefixOf s then [s.drop cs.length] else []
  | .star p, s => starRems p s
  | .plus p, s => plusRems p s
  | .cat r1 r2, s => concatRems (Re.run r2) (Re.run r1 s)
  | .alt r1 r2, s => Re.run r1 s ++ Re.run r2 s
  | .eol, s =>
      match s with
      | [] => [[]]
      | c :: t => if c == '\n' then [c :: t] else []

/-- `re.match(pattern, s)`: `some e` where `e` is `match.end()` of the match
found by the backtracking search, `none` when the pattern does not match at
offset 0. -/
def re_match (r : Re) (s : List Char) : Option Nat :=
  match Re.run r s with
  | [] => none
  | rem :: _ => some (s.length - rem.length)

/-! ### The comment-style table and the header regex -/

/-- `COMMENT_STYLES`: extension ↦ (comment prefix, comment suffix), in the
source's insertion order.  (The `".prettierrc"` entry is commented out in the
source and therefore absent.) -/
def COMMENT_STYLES : List (String × String × String) :=
  [(".aiignore", "#", ""),
   (".css", "/*", "*/"),
   (".gitignore", "#", ""),
   (".html", "<!--", "-->"),
   (".js", "//", ""),
   (".llmignore", "#", ""),
   (".md", "[//]: # (", ")"),
   (".mjs", "//", ""),
   (".npmrc", "#", ""),
   (".svelte", "<!--", "-->"),
   (".ts", "//", ""),
   (".txt", "#", ""),
   (".yaml", "#", ""),
   (".yml", "#", "")]

/-- First-occurrence deduplication, modelling `set(styles.values())`.
Python's set iteration order is unspecified; insertion order is used here.
The choice is behaviorally irrelevant for the built regex: the five comment
starters (`#`, `/*`, `<!--`, `//`, `[//]: # (`) are pairwise non-prefix, so
at most one alternative of the final alternation can match at a given
position and the alternation order cannot change the match. -/
def dedupFirst (l : List (String × String)) : List (String × String) :=
  l.foldl (fun acc x => if x ∈ acc then acc else acc ++ [x]) []

/-- One block-comment alternative of the header regex:
`{start}\s*{path_like_content}\s*{end}`. -/
def blockPattern (st en : String) : Re :=
  Re.cat (Re.lit st.data)
    (Re.cat (Re.star pyIsSpace)
      (Re.cat (Re.plus path_like_content)
        (Re.cat (Re.star pyIsSpace) (Re.lit en.data))))

/-- Alternation of a list of patterns, tried left to right. -/
def altList : List Re → Re
  | [] => Re.plus (fun _ => false)
  | [r] => r
  | r :: rs => Re.alt r (altList rs)

/-- The line-comment alternative of the header regex:
`(?:{starter|...})\s*{path_like_content}$`. -/
def linePattern (starters : List String) : Re :=
  Re.cat (altList (starters.map (fun st => Re.lit st.data)))
    (Re.cat (Re.star pyIsSpace) (Re.cat (Re.plus path_like_content) Re.eol))

/-- `build_header_regex(styles)`: `^\s*(?:block|...|line)\s*` over the unique
styles of the table. -/
def build_header_regex (styles : List (String × String × String)) : Re :=
  let unique_styles := dedupFirst (styles.map (fun e => e.2))
  let block_patterns :=
    (unique_styles.filter (fun st => st.2 ≠ "")).map (fun st => blockPattern st.1 st.2)
  let line_starters := (unique_styles.filter (fun st => st.2 = "")).map (fun st => st.1)
  let all_patterns :=
    block_patterns ++ (if line_starters = [] then [] else [linePattern line_starters])
  Re.cat (Re.star pyIsSpace) (Re.cat (altList all_patterns) (Re.star pyIsSpace))

/-- The module-level `HEADER_REGEX`. -/
def HEADER_REGEX : Re := build_header_regex COMMENT_STYLES

/-! ### Header formatting and `get_proposed_changes` -/

/-- `os.sep` on the POSIX platform the tool runs on. -/
def osSep : Char := '/'

/-- `format_header(file_path_str, style)`: the path with separators
normalized to `/`, wrapped in the style's comment tokens. -/
def format_header (file_path_str : List Char) (style : String × String) : List Char :=
  let path_display := file_path_str.map (fun c => if c = osSep then '/' else c)
  if style.2.data ≠ [] then
    style.1.data ++ ' ' :: (path_display ++ ' ' :: style.2.data)
  else
    style.1.data ++ ' ' :: path_display

/-- The final component of a path string (`pathlib.Path(...).name`); paths
handed to the tool by `os.walk` have no trailing slash. -/
def fileName (path : List Char) : List Char :=
  path.foldl (fun acc c => if c = '/' then [] else acc ++ [c]) []

/-- `str.rfind(c)` restricted to success: index of the last occurrence. -/
def rfindIdx (c : Char) : List Char → Option Nat
  | [] => none
  | x :: xs =>
      match rfindIdx c xs with
      | some i => some (i + 1)
      | none => if x = c then some 0 else none

/-- `pathlib.Path(...).suffix`: the part of the final component from its last
dot, provided that dot is neither the component's first nor last character
(so `.gitignore` has no suffix). -/
def pySuffix (path : List Char) : List Char :=
  let nm := fileName path
  match rfindIdx '.' nm with
  | some i => if 0 < i ∧ i + 1 < nm.length then nm.drop i else []
  | none => []

/-- Dictionary lookup `COMMENT_STYLES[file_ext]` (as an association-list
search; the table's keys are distinct). -/
def lookupStyle (ext : List Char) : Option (String × String) :=
  (COMMENT_STYLES.find? (fun e => e.1.data == ext)).map (fun e => e.2)

/-- `get_proposed_changes(file_path, project_root)`, with the file already
read: takes the path relative to the project root (as the source computes
`relative_path_str`; the extension only depends on the file name) and the
file's content, and returns `none` (no change) or `some (action, new
content)`.  The source's file-read failure branch also returns `none`;
reading is outside this pure model. -/
def get_proposed_changes (relative_path_str original_content : List Char) :
    Option (String × List Char) :=
  match lookupStyle (pySuffix relative_path_str) with
  | none => none
  | some style =>
      let correct_header := format_header relative_path_str style
      if (pyStrip original_content).isEmpty then none
      else if correct_header.isPrefixOf original_content then none
      else
        match re_match HEADER_REGEX original_content with
        | some e =>
            some ("UPDATED", correct_header ++ '\n' :: pyLstrip (original_content.drop e))
        | none => some ("ADDED", correct_header ++ '\n' :: pyLstrip original_content)

/-! ### The ignore resolver

Paths are modelled as their `pathlib` `parts`: lists of segments, absolute
paths given in full from the filesystem root.  The directory tree is
abstracted as a function from a directory (its segment list) to what reading
its `.gitignore` yields. -/

/-- Fuel-bounded core of `globMatch`; structural recursion on the fuel keeps
it kernel-reducible.  Every step shrinks `pat.length + t.length`, so
`globMatch`'s fuel of `pat.length + t.length + 1` is always enough. -/
def globMatchFuel : Nat → List Char → List Char → Bool
  | 0, _, _ => false
  | f + 1, pat, t =>
      match pat, t with
      | [], [] => true
      | [], _ :: _ => false
      | '*' :: ps, [] => globMatchFuel f ps []
      | '*' :: ps, c :: ts => globMatchFuel f ps (c :: ts) || globMatchFuel f ('*' :: ps) ts
      | _ :: _, [] => false
      | p :: ps, c :: ts => (p == c || p == '?') && globMatchFuel f ps ts

/-- Modelled from the spec: shell-glob matching of one gitwildmatch pattern
component (`*` matches any run of characters within a component, `?` one
character; other characters are literal).  The `pathspec` library realizing
this is a third-party dependency, not part of this repository's sources. -/
def globMatch (pat t : List Char) : Bool :=
  globMatchFuel (pat.length + t.length + 1) pat t

/-- One parsed ignore pattern: `neg` is true for a `!`-negated (re-include)
pattern. -/
structure GitPattern where
  neg : Bool
  pat : List Char
deriving DecidableEq

/-- A compiled ignore spec: the file's patterns in order. -/
abbrev PathSpec := List GitPattern

/-- Modelled from the spec: parsing one line of an ignore file ("blank lines
and `#`-prefixed lines are comments/no-ops"; a leading `!` negates). -/
def parsePatternLine (l : List Char) : Option GitPattern :=
  match pyStrip l with
  | [] => none
  | '#' :: _ => none
  | '!' :: rest => some ⟨true, rest⟩
  | s => some ⟨false, s⟩

/-- Modelled from the spec: `pathspec.PathSpec.from_lines('gitwildmatch', f)`. -/
def pathspec_from_lines (ls : List String) : PathSpec :=
  ls.filterMap (fun l => parsePatternLine l.data)

/-- The `/`-joined string of a segment list (how `pathlib` renders a relative
path). -/
def pathStr (parts : List String) : List Char := (String.intercalate "/" parts).data

/-- Modelled from the spec: whether one gitwildmatch pattern matches a
relative path.  A pattern without a slash may match at any directory level
(it is tested against each path component); a pattern containing a slash is
anchored and tested against the whole relative path. -/
def patternMatches (pat : List Char) (rel : List String) : Bool :=
  if '/' ∈ pat then globMatch pat (pathStr rel)
  else rel.any (fun comp => globMatch pat comp.data)

/-- Modelled from the spec: `PathSpec.match_file` — the file is matched iff
the last pattern that matches it is a non-negated one (standard gitignore
last-match-wins; a file matched only by negated patterns is not matched). -/
def match_file (spec : PathSpec) (rel : List String) : Bool :=
  spec.foldl (fun matched p => if patternMatches p.pat rel then !p.neg else matched) false

/-- What reading a directory's `.gitignore` yields: no such file, a
read/parse failure (the source catches the exception and leaves the spec
`None`), or the file's lines. -/
inductive DirRead where
  | noFile
  | readError
  | lines (ls : List String)

/-- `IgnoreChecker`: the resolved project root and the (abstracted)
filesystem.  The source's per-directory `_specs_cache` only memoizes
`_load_spec_for_dir`, which is pure here, so the cache is semantically
invisible and not modelled. -/
structure IgnoreChecker where
  root : List String
  fs : List String → DirRead

/-- `IgnoreChecker._load_spec_for_dir`: absence of the ignore file yields no
spec; a read/parse failure is caught, logged and likewise yields no spec. -/
def load_spec_for_dir (c : IgnoreChecker) (directory : List String) : Option PathSpec :=
  match c.fs directory with
  | .noFile => none
  | .readError => none
  | .lines ls => some (pathspec_from_lines ls)

/-- Lexicographic character-list comparison, as Python compares path
strings. -/
def charsLt : List Char → List Char → Bool
  | [], [] => false
  | [], _ :: _ => true
  | _ :: _, [] => false
  | a :: as, b :: bs => a < b || (a == b && charsLt as bs)

/-- Python `Path.__ge__`: comparison of the rendered path strings. -/
def pathGe (a b : List String) : Bool := !charsLt (pathStr a) (pathStr b)

/-- The `while current_dir >= self.root` loop of `is_ignored`.  `fuel` bounds
the walk (each step drops one segment; `is_ignored` supplies enough fuel for
any path inside the root, the contract under which the tool calls it). -/
def walkLoop (c : IgnoreChecker) (absPath : List String) : Nat → List String → Bool
  | 0, _ => false
  | fuel + 1, dir =>
      if pathGe dir c.root then
        let hit :=
          match load_spec_for_dir c dir with
          | some spec => match_file spec (absPath.drop dir.length)
          | none => false
        if hit then true
        else if dir = c.root then false
        else walkLoop c absPath fuel dir.dropLast
      else false

/-- `IgnoreChecker.is_ignored(file_path)`: anything with a `.git` segment is
ignored outright; otherwise walk from the file's directory up to the root,
first positive spec match wins, no match ⇒ not ignored.  The path relative
to a spec's directory (`absolute_path.relative_to(current_dir)`) is the
segment list with the directory's segments dropped. -/
def is_ignored (c : IgnoreChecker) (absPath : List String) : Bool :=
  if ".git" ∈ absPath then true
  else walkLoop c absPath (absPath.dropLast.length + 1) absPath.dropLast

/-! ## Helper lemmas -/

theorem all_ws_of_dropWhile_all_ws (l : List Char)
    (h : ∀ c ∈ l.dropWhile pyIsSpace, pyIsSpace c = true) :
    ∀ c ∈ l, pyIsSpace c = true := by
  induction l with
  | nil => intro c hc; cases hc
  | cons a t ih =>
    by_cases ha : pyIsSpace a = true
    · intro c hc
      rcases List.mem_cons.mp hc with rfl | hc
      · exact ha
      · exact ih (by rwa [List.dropWhile_cons_of_pos ha] at h) c hc
    · rw [List.dropWhile_cons_of_neg ha] at h
      exact h

/-- A stripped string is empty exactly when every character is whitespace
(Python truthiness of `content.strip()`). -/
theorem pyStrip_eq_nil_iff (l : List Char) :
    pyStrip l = [] ↔ ∀ c ∈ l, pyIsSpace c = true := by
  unfold pyStrip pyRstrip pyLstrip
  rw [List.reverse_eq_nil_iff, List.dropWhile_eq_nil_iff]
  constructor
  · intro h
    exact all_ws_of_dropWhile_all_ws l (fun c hc => h c (List.mem_reverse.mpr hc))
  · intro h c hc
    exact h c ((List.dropWhile_sublist pyIsSpace).mem (List.mem_reverse.mp hc))

/-- Every comment starter in the style table begins with a non-whitespace
character. -/
theorem lookup_style_head (ext : List Char) (style : String × String)
    (h : lookupStyle ext = some style) :
    ∃ c cs, style.1.data = c :: cs ∧ pyIsSpace c = false := by
  unfold lookupStyle at h
  cases hf : COMMENT_STYLES.find? (fun e => e.1.data == ext) with
  | none => rw [hf] at h; cases h
  | some entry =>
    rw [hf] at h
    have hmem := List.mem_of_find?_eq_some hf
    have hst : entry.2 = style := by simpa using h
    have hok : ∀ e ∈ COMMENT_STYLES,
        (match e.2.1.data with
         | [] => false
         | c :: _ => !pyIsSpace c) = true := by decide
    have hcur := hok entry hmem
    rw [hst] at hcur
    cases hd : style.1.data with
    | nil => rw [hd] at hcur; cases hcur
    | cons c cs =>
      rw [hd] at hcur
      exact ⟨c, cs, rfl, by simpa using hcur⟩

theorem format_header_append (path : List Char) (style : String × String) :
    ∃ t, format_header path style = style.1.data ++ t := by
  unfold format_header
  by_cases h : style.2.data ≠ []
  · rw [if_pos h]; exact ⟨_, rfl⟩
  · rw [if_neg h]; exact ⟨_, rfl⟩

/-- The `original_content.startswith(correct_header)` short-circuit of
`get_proposed_changes`: content starting with the correct header is left
alone. -/
theorem gpc_none_of_startswith (path content : List Char) (style : String × String)
    (hstyle : lookupStyle (pySuffix path) = some style)
    (hpre : (format_header path style).isPrefixOf content = true) :
    get_proposed_changes path content = none := by
  obtain ⟨t, ht⟩ := List.isPrefixOf_iff_prefix.mp hpre
  obtain ⟨c, cs, hsd, hc⟩ := lookup_style_head _ _ hstyle
  obtain ⟨u, hu⟩ := format_header_append path style
  have hempty : (pyStrip content).isEmpty = false := by
    rw [List.isEmpty_eq_false]
    intro hnil
    have hall := (pyStrip_eq_nil_iff content).mp hnil
    have hcmem : c ∈ content := by
      rw [← ht, hu, hsd]; simp
    have hws := hall c hcmem
    rw [hc] at hws; cases hws
  unfold get_proposed_changes
  rw [hstyle]
  simp [hempty, hpre]

/-- Any proposed change's new content is the correct header, a newline, and a
tail. -/
theorem gpc_some_shape (path content : List Char) (act : String) (nc : List Char)
    (h : get_proposed_changes path content = some (act, nc)) :
    ∃ style t, lookupStyle (pySuffix path) = some style ∧
      nc = format_header path style ++ '\n' :: t := by
  unfold get_proposed_changes at h
  cases hstyle : lookupStyle (pySuffix path) with
  | none => rw [hstyle] at h; cases h
  | some style =>
    rw [hstyle] at h
    cases hempty : (pyStrip content).isEmpty with
    | true => simp [hempty] at h
    | false =>
      cases hpre : (format_header path style).isPrefixOf content with
      | true => simp [hempty, hpre] at h
      | false =>
        cases hre : re_match HEADER_REGEX content with
        | some e =>
          simp [hempty, hpre, hre] at h
          exact ⟨style, _, rfl, h.2.symm⟩
        | none =>
          simp [hempty, hpre, hre] at h
          exact ⟨style, _, rfl, h.2.symm⟩

/-! ## Claim theorems -/

/-- C5: a file whose content already starts with the exact correct header
string is never rewritten, and applying the rewriter to its own output
proposes no further change (a second pass is a no-op). -/
theorem gpc_idempotence :
    (∀ path content style, lookupStyle (pySuffix path) = some style →
        (format_header path style).isPrefixOf content = true →
        get_proposed_changes path content = none) ∧
    (∀ path content act nc, get_proposed_changes path content = some (act, nc) →
        get_proposed_changes path nc = none) := by
  refine ⟨fun path content style h1 h2 => gpc_none_of_startswith path content style h1 h2, ?_⟩
  intro path content act nc h
  obtain ⟨style, t, hstyle, hnc⟩ := gpc_some_shape path content act nc h
  apply gpc_none_of_startswith path nc style hstyle
  rw [hnc]
  exact List.isPrefixOf_iff_prefix.mpr (List.prefix_append _ _)

theorem gpc_idempotence_witness :
    get_proposed_changes ("a.ts".data) ("// a.ts\nx\n".data) = none :=
  gpc_idempotence.2 ("a.ts".data) ("x\n".data) "ADDED" ("// a.ts\nx\n".data) (by decide)

/-- C6: a file whose extension is absent from the `COMMENT_STYLES` table is
never modified, whatever its content. -/
theorem gpc_unsupported_extension (path content : List Char)
    (h : lookupStyle (pySuffix path) = none) :
    get_proposed_changes path content = none := by
  unfold get_proposed_changes
  rw [h]

theorem gpc_unsupported_extension_witness :
    get_proposed_changes ("a.json".data) ("anything at all".data) = none :=
  gpc_unsupported_extension ("a.json".data) ("anything at all".data) (by decide)

/-- C7: any path with a `.git` segment is ignored immediately, regardless of
the ignore files on disk. -/
theorem is_ignored_git_dir (c : IgnoreChecker) (absPath : List String)
    (h : ".git" ∈ absPath) : is_ignored c absPath = true := by
  unfold is_ignored
  rw [if_pos h]

theorem is_ignored_git_dir_witness :
    is_ignored ⟨["r"], fun _ => DirRead.noFile⟩ ["r", ".git", "a.ts"] = true :=
  is_ignored_git_dir ⟨["r"], fun _ => DirRead.noFile⟩ ["r", ".git", "a.ts"] (by decide)

/-- C8: empty or whitespace-only content is skipped (`None`), not an
error. -/
theorem gpc_blank_content (path content : List Char)
    (h : (pyStrip content).isEmpty = true) :
    get_proposed_changes path content = none := by
  unfold get_proposed_changes
  cases hstyle : lookupStyle (pySuffix path) with
  | none => rfl
  | some style => simp [h]

theorem gpc_blank_content_witness :
    get_proposed_changes ("a.ts".data) ("  \n\t".data) = none :=
  gpc_blank_content ("a.ts".data) ("  \n\t".data) (by decide)

/-- C10: the already-correct test is a prefix check, not an exact-first-line
check: content whose first line is the correct header followed by further
characters on the same line is left unchanged (`None`), never updated. -/
theorem gpc_prefix_check_not_exact (path extra rest : List Char) (style : String × String)
    (hstyle : lookupStyle (pySuffix path) = some style)
    (hnl : '\n' ∉ extra) (hex : extra ≠ []) :
    get_proposed_changes path (format_header path style ++ extra ++ '\n' :: rest) = none := by
  apply gpc_none_of_startswith path _ style hstyle
  exact List.isPrefixOf_iff_prefix.mpr ⟨extra ++ '\n' :: rest, by simp⟩

theorem gpc_prefix_check_not_exact_witness :
    get_proposed_changes ("src/a.ts".data) ("// src/a.ts.bak\nbody".data) = none := by
  have h := gpc_prefix_check_not_exact ("src/a.ts".data) (".bak".data) ("body".data)
    ("//", "") (by decide) (by decide) (by decide)
  have e : format_header ("src/a.ts".data) ("//", "") ++ ".bak".data ++ '\n' :: "body".data
      = "// src/a.ts.bak\nbody".data := by decide
  rw [e] at h
  exact h

/-! ### C9: ignore-file load failure is recovered locally -/

def updateFs (fs : List String → DirRead) (d : List String) (r : DirRead) :
    List String → DirRead :=
  fun x => if x = d then r else fs x

theorem walkLoop_congr (c c' : IgnoreChecker) (hroot : c.root = c'.root)
    (hload : ∀ d, load_spec_for_dir c d = load_spec_for_dir c' d)
    (absPath : List String) :
    ∀ fuel dir, walkLoop c absPath fuel dir = walkLoop c' absPath fuel dir := by
  intro fuel
  induction fuel with
  | zero => intro dir; rfl
  | succ n ih =>
    intro dir
    unfold walkLoop
    rw [hroot, hload dir, ih dir.dropLast]

/-- C9: a directory whose ignore file fails to read or parse contributes no
spec — exactly like a directory with no ignore file — and `is_ignored`
walks on identically instead of aborting. -/
theorem ignore_load_failure_recovers (root : List String) (fs : List String → DirRead)
    (d absPath : List String) :
    load_spec_for_dir ⟨root, updateFs fs d .readError⟩ d = none ∧
    is_ignored ⟨root, updateFs fs d .readError⟩ absPath
      = is_ignored ⟨root, updateFs fs d .noFile⟩ absPath := by
  constructor
  · unfold load_spec_for_dir updateFs
    simp
  · unfold is_ignored
    by_cases h : ".git" ∈ absPath
    · rw [if_pos h, if_pos h]
    · rw [if_neg h, if_neg h]
      refine walkLoop_congr ⟨root, updateFs fs d .readError⟩ ⟨root, updateFs fs d .noFile⟩
        rfl (fun dir => ?_) absPath _ _
      unfold load_spec_for_dir updateFs
      by_cases hd : dir = d
      · subst hd; simp
      · simp [hd]

/-! ### C1: deeper negated ignore rules do not re-include -/

/-- The C1 scenario: root `.gitignore` excludes `*.log`; `sub/.gitignore`
holds the negated pattern `!keep.log`. -/
def c1_fs : List String → DirRead
  | ["r"] => .lines ["*.log"]
  | ["r", "sub"] => .lines ["!keep.log"]
  | _ => .noFile

def c1_checker : IgnoreChecker := ⟨["r"], c1_fs⟩

/-- C1 counterexample: `sub/keep.log` IS ignored — the deeper spec's negated
pattern yields no positive match, so the walk continues to the root where
`*.log` matches; the claim's expected `false` does not hold. -/
theorem ignore_negation_counterexample :
    is_ignored c1_checker ["r", "sub", "keep.log"] = true := by decide

/-- C1 amended: in the claimed scenario both `sub/keep.log` and `other.log`
are ignored; only positive matches short-circuit the upward walk, a deeper
negated pattern cannot re-include a file excluded at a shallower level. -/
theorem ignore_negation_amended :
    is_ignored c1_checker ["r", "sub", "keep.log"] = true ∧
    is_ignored c1_checker ["r", "other.log"] = true := by decide

/-! ### C2, C3, C4 counterexamples -/

/-- C2 counterexample: a leading `// Copyright 2024 Example Corp` comment is
made of word characters and spaces, all inside the regex's path-like class,
so it matches `HEADER_REGEX` and is excised: action `UPDATED`, the comment is
gone — not the claimed `ADDED` with the comment retained. -/
theorem copyright_comment_counterexample :
    get_proposed_changes ("src/a.ts".data) ("// Copyright 2024 Example Corp\nbody\n".data)
      = some ("UPDATED", "// src/a.ts\nbody\n".data) ∧
    get_proposed_changes ("src/a.ts".data) ("// Copyright 2024 Example Corp\nbody\n".data)
      ≠ some ("ADDED", "// src/a.ts\n// Copyright 2024 Example Corp\nbody\n".data) := by
  decide

/-- C3 counterexample: for content `" x"` (leading whitespace, no header) the
body is `lstrip`ped, so the new content is not header + newline + original
verbatim. -/
theorem added_verbatim_counterexample :
    get_proposed_changes ("a.ts".data) (" x".data) = some ("ADDED", "// a.ts\nx".data) ∧
    ("// a.ts\nx".data : List Char) ≠ "// a.ts\n x".data := by decide

/-- C4 counterexample: with a blank line after the old header, the remainder
is not preserved verbatim — the blank line is swallowed by the match's
trailing `\s*` (and `lstrip`). -/
theorem replace_header_counterexample :
    get_proposed_changes ("src/real/path.ts".data) ("// old/wrong/path.ts\n\nbody\n".data)
      = some ("UPDATED", "// src/real/path.ts\nbody\n".data) ∧
    ("// src/real/path.ts\nbody\n".data : List Char)
      ≠ "// src/real/path.ts\n\nbody\n".data := by decide

/-- C3 amended: for a supported file with non-whitespace content, not already
carrying its correct header and with no header-shaped leading comment
(`HEADER_REGEX` does not match), the action is `ADDED` and the new content is
the correct header, one newline, then the original content with leading
whitespace stripped (verbatim whenever the content had no leading
whitespace). -/
theorem gpc_added_header (path content : List Char) (style : String × String)
    (hstyle : lookupStyle (pySuffix path) = some style)
    (hne : (pyStrip content).isEmpty = false)
    (hpre : (format_header path style).isPrefixOf content = false)
    (hre : re_match HEADER_REGEX content = none) :
    get_proposed_changes path content
      = some ("ADDED", format_header path style ++ '\n' :: pyLstrip content) := by
  unfold get_proposed_changes
  rw [hstyle]
  simp [hne, hpre, hre]

theorem gpc_added_header_witness :
    get_proposed_changes ("a.ts".data) ("code\n".data)
      = some ("ADDED", "// a.ts\ncode\n".data) := by
  have h := gpc_added_header ("a.ts".data) ("code\n".data) ("//", "")
    (by decide) (by decide) (by decide) (by decide)
  have e : format_header ("a.ts".data) ("//", "") ++ '\n' :: pyLstrip ("code\n".data)
      = "// a.ts\ncode\n".data := by decide
  rw [e] at h
  exact h

/-! ### The regex on a symbolic line-comment header

`HEADER_REGEX` applied to `"// " ++ body ++ "\n" ++ rest`, where `body` is a
nonempty run of path-like characters starting with a non-space character and
`rest` has no leading whitespace, matches exactly the comment line and its
newline.  The lemmas below track only the head of the backtracking
candidate list — which is the match Python reports. -/

theorem dropWhile_append_of_all (p : Char → Bool) (l r : List Char)
    (h : ∀ c ∈ l, p c = true) : (l ++ r).dropWhile p = r.dropWhile p := by
  induction l with
  | nil => rfl
  | cons a t ih =>
    rw [List.cons_append, List.dropWhile_cons_of_pos (h a (List.mem_cons_self a t))]
    exact ih (fun c hc => h c (List.mem_cons_of_mem a hc))

theorem starRems_cons_of_pos (p : Char → Bool) (c : Char) (t : List Char)
    (h : p c = true) : starRems p (c :: t) = starRems p t ++ [c :: t] := by
  show (if p c = true then starRems p t ++ [c :: t] else [c :: t])
      = starRems p t ++ [c :: t]
  rw [if_pos h]

theorem starRems_cons_of_neg (p : Char → Bool) (c : Char) (t : List Char)
    (h : p c = false) : starRems p (c :: t) = [c :: t] := by
  show (if p c = true then starRems p t ++ [c :: t] else [c :: t]) = [c :: t]
  rw [if_neg (by simp [h])]

/-- The greedy star's first backtracking candidate consumes the maximal run:
its remainder is `dropWhile`. -/
theorem starRems_shape (p : Char → Bool) (s : List Char) :
    ∃ j, starRems p s = s.dropWhile p :: j := by
  induction s with
  | nil => exact ⟨[], rfl⟩
  | cons c t ih =>
    by_cases hc : p c = true
    · obtain ⟨j, hj⟩ := ih
      refine ⟨j ++ [c :: t], ?_⟩
      rw [starRems_cons_of_pos p c t hc, hj, List.dropWhile_cons_of_pos hc]
      rfl
    · refine ⟨[], ?_⟩
      rw [starRems_cons_of_neg p c t (by simpa using hc),
        List.dropWhile_cons_of_neg hc]

theorem run_cat_eq (r1 r2 : Re) (s : List Char) :
    (Re.cat r1 r2).run s = concatRems (Re.run r2) (Re.run r1 s) := rfl

theorem run_alt_eq (r1 r2 : Re) (s : List Char) :
    (Re.alt r1 r2).run s = Re.run r1 s ++ Re.run r2 s := rfl

theorem concatRems_cons (f : List Char → List (List Char)) (a : List Char)
    (l : List (List Char)) : concatRems f (a :: l) = f a ++ concatRems f l := rfl

/-- Head-chaining through concatenation: if the first pattern's best
candidate leaves `a` and the second's best candidate on `a` leaves `b`, the
concatenation's best candidate leaves `b`. -/
theorem run_cat_head (r1 r2 : Re) (s a b : List Char) (j1 j2 : List (List Char))
    (h1 : Re.run r1 s = a :: j1) (h2 : Re.run r2 a = b :: j2) :
    ∃ j, (Re.cat r1 r2).run s = b :: j := by
  refine ⟨j2 ++ concatRems (Re.run r2) j1, ?_⟩
  rw [run_cat_eq, h1, concatRems_cons, h2]
  rfl

theorem run_cat_nil (r1 r2 : Re) (s : List Char) (h : Re.run r1 s = []) :
    (Re.cat r1 r2).run s = [] := by
  rw [run_cat_eq, h]
  rfl

theorem run_alt_nil (r1 r2 : Re) (s : List Char) (h : Re.run r1 s = []) :
    (Re.alt r1 r2).run s = Re.run r2 s := by
  rw [run_alt_eq, h]
  rfl

/-- The backtracking run of `HEADER_REGEX` on `"// " ++ (b0 :: bt) ++ "\n" ++
rest`: the head candidate consumes the whole comment line, its newline, and
no further whitespace (there is none: `rest` has no leading whitespace). -/
theorem run_header_line_comment (b0 : Char) (bt rest : List Char)
    (hb0ws : pyIsSpace b0 = false)
    (hb0p : path_like_content b0 = true)
    (hall : ∀ c ∈ bt, path_like_content c = true)
    (hrest : rest.dropWhile pyIsSpace = rest) :
    ∃ j, Re.run HEADER_REGEX (('/' :: '/' :: ' ' :: b0 :: bt) ++ '\n' :: rest)
      = rest :: j := by
  have hHR : HEADER_REGEX
      = Re.cat (Re.star pyIsSpace)
          (Re.cat
            (Re.alt (blockPattern "/*" "*/")
              (Re.alt (blockPattern "<!--" "-->")
                (Re.alt (blockPattern "[//]: # (" ")") (linePattern ["#", "//"]))))
            (Re.star pyIsSpace)) := rfl
  have hs : ('/' :: '/' :: ' ' :: b0 :: bt) ++ '\n' :: rest
      = '/' :: '/' :: ' ' :: (b0 :: (bt ++ '\n' :: rest)) := by simp
  rw [hHR, hs]
  -- abbreviations for the suffixes reached during the walk
  have hdropT : (bt ++ '\n' :: rest).dropWhile path_like_content = '\n' :: rest := by
    rw [dropWhile_append_of_all path_like_content bt ('\n' :: rest) hall]
    exact List.dropWhile_cons_of_neg (by decide)
  -- the line-comment starter `//` matches, the block starters do not
  have hB1 : Re.run (blockPattern "/*" "*/")
      ('/' :: '/' :: ' ' :: (b0 :: (bt ++ '\n' :: rest))) = [] :=
    run_cat_nil _ _ _ rfl
  have hB2 : Re.run (blockPattern "<!--" "-->")
      ('/' :: '/' :: ' ' :: (b0 :: (bt ++ '\n' :: rest))) = [] :=
    run_cat_nil _ _ _ rfl
  have hB3 : Re.run (blockPattern "[//]: # (" ")")
      ('/' :: '/' :: ' ' :: (b0 :: (bt ++ '\n' :: rest))) = [] :=
    run_cat_nil _ _ _ rfl
  -- `\s*` after `//`: greedily takes the single space, stops at `b0`
  have hW : Re.run (Re.star pyIsSpace) (' ' :: (b0 :: (bt ++ '\n' :: rest)))
      = (b0 :: (bt ++ '\n' :: rest)) :: [' ' :: (b0 :: (bt ++ '\n' :: rest))] := by
    show starRems pyIsSpace _ = _
    rw [starRems_cons_of_pos pyIsSpace ' ' _ rfl,
      starRems_cons_of_neg pyIsSpace b0 _ hb0ws]
    rfl
  -- `path_like_content+`: greedily takes the whole body, stops at `\n`
  have hP : ∃ j, Re.run (Re.plus path_like_content) (b0 :: (bt ++ '\n' :: rest))
      = ('\n' :: rest) :: j := by
    obtain ⟨j, hj⟩ := starRems_shape path_like_content (bt ++ '\n' :: rest)
    refine ⟨j, ?_⟩
    show (if path_like_content b0 = true
        then starRems path_like_content (bt ++ '\n' :: rest) else [])
      = ('\n' :: rest) :: j
    rw [if_pos hb0p, hj, hdropT]
  -- `$` succeeds before the newline
  have hEol : Re.run Re.eol ('\n' :: rest) = ['\n' :: rest] := rfl
  -- the line pattern: `(?:#|//)\s*path+$`
  obtain ⟨jP, hjP⟩ := hP
  obtain ⟨jT2, hjT2⟩ :=
    run_cat_head (Re.plus path_like_content) Re.eol (b0 :: (bt ++ '\n' :: rest))
      ('\n' :: rest) ('\n' :: rest) jP [] hjP hEol
  obtain ⟨jT1, hjT1⟩ :=
    run_cat_head (Re.star pyIsSpace) (Re.cat (Re.plus path_like_content) Re.eol)
      (' ' :: (b0 :: (bt ++ '\n' :: rest))) (b0 :: (bt ++ '\n' :: rest)) ('\n' :: rest)
      [' ' :: (b0 :: (bt ++ '\n' :: rest))] jT2 hW hjT2
  have hSt : Re.run (altList (["#", "//"].map (fun st => Re.lit st.data)))
      ('/' :: '/' :: ' ' :: (b0 :: (bt ++ '\n' :: rest)))
      = [' ' :: (b0 :: (bt ++ '\n' :: rest))] := rfl
  obtain ⟨jL, hjL⟩ :=
    run_cat_head (altList (["#", "//"].map (fun st => Re.lit st.data)))
      (Re.cat (Re.star pyIsSpace) (Re.cat (Re.plus path_like_content) Re.eol))
      ('/' :: '/' :: ' ' :: (b0 :: (bt ++ '\n' :: rest)))
      (' ' :: (b0 :: (bt ++ '\n' :: rest))) ('\n' :: rest) [] jT1 hSt hjT1
  -- fold the failed block alternatives away
  have hAll : Re.run
      (Re.alt (blockPattern "/*" "*/")
        (Re.alt (blockPattern "<!--" "-->")
          (Re.alt (blockPattern "[//]: # (" ")") (linePattern ["#", "//"]))))
      ('/' :: '/' :: ' ' :: (b0 :: (bt ++ '\n' :: rest)))
      = ('\n' :: rest) :: jL := by
    rw [run_alt_nil _ _ _ hB1, run_alt_nil _ _ _ hB2, run_alt_nil _ _ _ hB3]
    exact hjL
  -- the trailing `\s*` eats the newline and stops (rest has no leading ws)
  have hTrail : ∃ j, Re.run (Re.star pyIsSpace) ('\n' :: rest) = rest :: j := by
    obtain ⟨j, hj⟩ := starRems_shape pyIsSpace rest
    refine ⟨j ++ ['\n' :: rest], ?_⟩
    show starRems pyIsSpace _ = _
    rw [starRems_cons_of_pos pyIsSpace '\n' _ rfl, hj, hrest]
    rfl
  obtain ⟨jTr, hjTr⟩ := hTrail
  obtain ⟨jR2, hjR2⟩ :=
    run_cat_head _ (Re.star pyIsSpace) ('/' :: '/' :: ' ' :: (b0 :: (bt ++ '\n' :: rest)))
      ('\n' :: rest) rest jL jTr hAll hjTr
  -- the leading `\s*` consumes nothing (`/` is not whitespace)
  have hLead : Re.run (Re.star pyIsSpace)
      ('/' :: '/' :: ' ' :: (b0 :: (bt ++ '\n' :: rest)))
      = [('/' :: '/' :: ' ' :: (b0 :: (bt ++ '\n' :: rest)))] := rfl
  exact run_cat_head _ _ _ _ rest [] jR2 hLead hjR2

/-- `re.match` end offset on a symbolic line-comment header: the comment
line plus its newline. -/
theorem re_match_line_comment (b0 : Char) (bt rest : List Char)
    (hb0ws : pyIsSpace b0 = false)
    (hb0p : path_like_content b0 = true)
    (hall : ∀ c ∈ bt, path_like_content c = true)
    (hrest : rest.dropWhile pyIsSpace = rest) :
    re_match HEADER_REGEX (('/' :: '/' :: ' ' :: b0 :: bt) ++ '\n' :: rest)
      = some (bt.length + 5) := by
  obtain ⟨j, hj⟩ := run_header_line_comment b0 bt rest hb0ws hb0p hall hrest
  unfold re_match
  rw [hj]
  simp only [List.length_append, List.length_cons, Option.some.injEq]
  omega

/-- The shared engine behind the C2 and C4 amendments: a file beginning with
a line comment `// <path-like body>` (body nonempty, starting with a
non-space path-like character), followed by a newline and a remainder with
no leading whitespace, and not starting with the correct header, gets action
`UPDATED` with the comment line excised and the correct header in its
place. -/
theorem gpc_line_comment_updated (path : List Char) (style : String × String)
    (b0 : Char) (bt rest : List Char)
    (hstyle : lookupStyle (pySuffix path) = some style)
    (hb0ws : pyIsSpace b0 = false)
    (hb0p : path_like_content b0 = true)
    (hall : ∀ c ∈ bt, path_like_content c = true)
    (hrest : rest.dropWhile pyIsSpace = rest)
    (hpre : (format_header path style).isPrefixOf
      (('/' :: '/' :: ' ' :: b0 :: bt) ++ '\n' :: rest) = false) :
    get_proposed_changes path (('/' :: '/' :: ' ' :: b0 :: bt) ++ '\n' :: rest)
      = some ("UPDATED", format_header path style ++ '\n' :: rest) := by
  have hre := re_match_line_comment b0 bt rest hb0ws hb0p hall hrest
  have hempty : (pyStrip (('/' :: '/' :: ' ' :: b0 :: bt) ++ '\n' :: rest)).isEmpty
      = false := by
    rw [List.isEmpty_eq_false]
    intro hnil
    have hall2 := (pyStrip_eq_nil_iff _).mp hnil
    have hslash := hall2 '/' (by simp)
    exact absurd hslash (by decide)
  have hdrop : (('/' :: '/' :: ' ' :: b0 :: bt) ++ '\n' :: rest).drop (bt.length + 5)
      = rest := by
    have hsplit : ('/' :: '/' :: ' ' :: b0 :: bt) ++ '\n' :: rest
        = (('/' :: '/' :: ' ' :: b0 :: bt) ++ ['\n']) ++ rest := by simp
    rw [hsplit]
    refine List.drop_left' ?_
    simp [List.length_append]
  unfold get_proposed_changes
  rw [hstyle]
  simp only [hempty, hpre, hre, Bool.false_eq_true, if_false]
  rw [hdrop]
  show some ("UPDATED", _ ++ '\n' :: rest.dropWhile pyIsSpace) = _
  rw [hrest]

/-- C2 amended: a supported file beginning with `// Copyright 2024 Example
Corp` has that comment treated as a header — its characters all lie in the
regex's path-like class — so the action is `UPDATED` and the comment line is
removed, replaced by the correct header. -/
theorem copyright_comment_amended (rest : List Char)
    (hrest : rest.dropWhile pyIsSpace = rest) :
    get_proposed_changes ("src/a.ts".data) ("// Copyright 2024 Example Corp\n".data ++ rest)
      = some ("UPDATED", "// src/a.ts\n".data ++ rest) := by
  have h := gpc_line_comment_updated ("src/a.ts".data) ("//", "") 'C'
    ("opyright 2024 Example Corp".data) rest (by decide) (by decide) (by decide)
    (by decide) hrest rfl
  have e1 : ("// Copyright 2024 Example Corp\n".data : List Char) ++ rest
      = ('/' :: '/' :: ' ' :: 'C' :: "opyright 2024 Example Corp".data) ++ '\n' :: rest :=
    rfl
  have e2 : ("// src/a.ts\n".data : List Char) ++ rest
      = format_header ("src/a.ts".data) ("//", "") ++ '\n' :: rest := rfl
  rw [e1, e2]
  exact h

theorem copyright_comment_amended_witness :
    get_proposed_changes ("src/a.ts".data) ("// Copyright 2024 Example Corp\nx = 1\n".data)
      = some ("UPDATED", "// src/a.ts\nx = 1\n".data) := by
  have h := copyright_comment_amended ("x = 1\n".data) (by decide)
  have e1 : ("// Copyright 2024 Example Corp\n".data : List Char) ++ "x = 1\n".data
      = "// Copyright 2024 Example Corp\nx = 1\n".data := by decide
  have e2 : ("// src/a.ts\n".data : List Char) ++ "x = 1\n".data
      = "// src/a.ts\nx = 1\n".data := by decide
  rw [e1, e2] at h
  exact h

/-- C4 amended: a supported file whose first line is `// old/wrong/path.ts`,
rewritten for target `src/real/path.ts`, gets `UPDATED`: the old header line
(and its newline) is removed and the new header takes its place; the
remainder is preserved verbatim provided it has no leading whitespace
(leading whitespace would be stripped, as the counterexample shows). -/
theorem replace_header_amended (rest : List Char)
    (hrest : rest.dropWhile pyIsSpace = rest) :
    get_proposed_changes ("src/real/path.ts".data) ("// old/wrong/path.ts\n".data ++ rest)
      = some ("UPDATED", "// src/real/path.ts\n".data ++ rest) := by
  have h := gpc_line_comment_updated ("src/real/path.ts".data) ("//", "") 'o'
    ("ld/wrong/path.ts".data) rest (by decide) (by decide) (by decide)
    (by decide) hrest rfl
  have e1 : ("// old/wrong/path.ts\n".data : List Char) ++ rest
      = ('/' :: '/' :: ' ' :: 'o' :: "ld/wrong/path.ts".data) ++ '\n' :: rest := rfl
  have e2 : ("// src/real/path.ts\n".data : List Char) ++ rest
      = format_header ("src/real/path.ts".data) ("//", "") ++ '\n' :: rest := rfl
  rw [e1, e2]
  exact h

theorem replace_header_amended_witness :
    get_proposed_changes ("src/real/path.ts".data) ("// old/wrong/path.ts\nconst x = 1\n".data)
      = some ("UPDATED", "// src/real/path.ts\nconst x = 1\n".data) := by
  have h := replace_header_amended ("const x = 1\n".data) (by decide)
  have e1 : ("// old/wrong/path.ts\n".data : List Char) ++ "const x = 1\n".data
      = "// old/wrong/path.ts\nconst x = 1\n".data := by decide
  have e2 : ("// src/real/path.ts\n".data : List Char) ++ "const x = 1\n".data
      = "// src/real/path.ts\nconst x = 1\n".data := by decide
  rw [e1, e2] at h
  exact h

end FixHeaders
